import Mathlib

/-!
Shallow embedding of the ERC1155 token connector (TokensService / TokenListener)
together with proofs about its identifier codec, event translation and
subscription reconciliation logic.

The event listener, stream reconciliation and query plumbing are translated
directly from the TypeScript source. The identifier codec utilities
(tokens.util) are not part of the available source tree; they are modelled
from the specification of their interface, as noted on each definition.
-/

namespace Tokens

/-! ## Generic string helpers (semantics of the JavaScript primitives used) -/

/-- Split a character list at every occurrence of the separator, JavaScript
String.split semantics: the result always has one more entry than the number
of separators, and the empty string splits to one empty entry. -/
def splitChar (sep : Char) : List Char → List (List Char)
  | [] => [[]]
  | c :: rest =>
    let r := splitChar sep rest
    if c = sep then [] :: r
    else
      match r with
      | [] => [[c]]
      | h :: t => (c :: h) :: t

/-- Split a string at every occurrence of a separator character. -/
def splitStr (s : String) (sep : Char) : List String :=
  (splitChar sep s.data).map String.mk

/-- JavaScript String.padStart with a single pad character: pad on the left up
to the requested length, returning the string unchanged when already long
enough. -/
def padStart (s : String) (n : Nat) (c : Char) : String :=
  ⟨List.replicate (n - s.data.length) c ++ s.data⟩

/-- Locate the first occurrence of a pattern inside a character list,
returning the characters before it and the characters after it. -/
def splitAtSub (pat : List Char) : List Char → Option (List Char × List Char)
  | [] => none
  | c :: cs =>
    if List.isPrefixOf pat (c :: cs) then some ([], (c :: cs).drop pat.length)
    else
      match splitAtSub pat cs with
      | some (pre, post) => some (c :: pre, post)
      | none => none

/-- JavaScript String.includes for a non-empty pattern. -/
def containsSub (s pat : String) : Bool :=
  (splitAtSub pat.data s.data).isSome

/-- JavaScript String.replace with a string pattern: replaces only the first
occurrence, returning the string unchanged when the pattern does not occur. -/
def replaceFirstSub (s pat rep : String) : String :=
  match splitAtSub pat.data s.data with
  | some (pre, post) => ⟨pre⟩ ++ rep ++ ⟨post⟩
  | none => s

/-! ## Constants from the source -/

def TOKEN_STANDARD : String := "ERC1155"

def ZERO_ADDRESS : String := "0x0000000000000000000000000000000000000000"

def BASE_SUBSCRIPTION_NAME : String := "base"

def CUSTOM_URI_IID : String := "0xa1d87d57"

def tokenCreateEvent : String := "TokenPoolCreation"

def transferSingleEvent : String := "TransferSingle"

def transferBatchEvent : String := "TransferBatch"

def approvalForAllEvent : String := "ApprovalForAll"

def ALL_SUBSCRIBED_EVENTS : List String :=
  [tokenCreateEvent, transferSingleEvent, transferBatchEvent, approvalForAllEvent]

/-! ## Identifier codec

Modelled from the spec: the codec module (tokens.util) is not part of the
available source tree. Each definition below follows the interface contract
stated in the specification: reversible pack and unpack pairs, a lenient
subscription-name decoder that returns undefined fields instead of failing,
and a pool locator whose block number defaults to absent. -/

/-- Modelled from the spec: decoded form of a token type identifier, carrying
the owning pool id, the token index (absent for fungible pools) and the
fungibility flag. -/
structure TokenIdParts where
  poolId : String
  tokenIndex : Option String
  isFungible : Bool
deriving DecidableEq

/-- Modelled from the spec: a wire token-type identifier encodes exactly a
fungibility flag, the owning pool id and a token index; it is treated
abstractly as that record since the spec leaves the bit layout opaque. -/
structure TokenTypeId where
  isFungible : Bool
  poolId : String
  tokenIndex : String
deriving DecidableEq

/-- Modelled from the spec: fungibility is recoverable from the pool id
string alone; the concrete convention used is an initial capital F. -/
def isFungible (poolId : String) : Bool :=
  poolId.data.headD 'F' = 'F'

/-- Modelled from the spec: packTokenId is deterministic and reversible; the
token index defaults to zero when not supplied by the caller. -/
def packTokenId (poolId : String) (tokenIndex : String) : TokenTypeId :=
  ⟨isFungible poolId, poolId, tokenIndex⟩

/-- Modelled from the spec: strict decoder for token type identifiers;
decoding a fungible identifier yields an absent token index. -/
def unpackTokenId (id : TokenTypeId) : TokenIdParts :=
  ⟨id.poolId, if id.isFungible then none else some id.tokenIndex, id.isFungible⟩

/-- Modelled from the spec: decoded pool locator, pool id plus the optional
creation block number. -/
structure PoolLocator where
  poolId : String
  blockNumber : Option String
deriving DecidableEq

/-- Modelled from the spec: packPoolLocator joins the pool id and the
optional block number; the block number is absent by default, never zero
unless explicitly set. -/
def packPoolLocator (poolId : String) (blockNumber : Option String) : String :=
  match blockNumber with
  | none => poolId
  | some b => poolId ++ ("&") ++ b

/-- Modelled from the spec: unpackPoolLocator inverts packPoolLocator; a
locator without a separator decodes to a bare pool id with an absent block
number, so the reserved base sentinel decodes to the pool id base. -/
def unpackPoolLocator (data : String) : PoolLocator :=
  match splitStr data '&' with
  | [p] => ⟨p, none⟩
  | p :: b :: _ => ⟨p, some b⟩
  | [] => ⟨data, none⟩

/-- Modelled from the spec: decoded subscription name; fields other than the
instance path are optional because decoding is lenient. -/
structure SubscriptionParts where
  instancePath : String
  poolLocator : Option String
  event : Option String
  poolData : Option String
deriving DecidableEq

/-- Modelled from the spec: packSubscriptionName joins instance path, pool
locator (or the base sentinel), event name and optional pool metadata. -/
def packSubscriptionName (instancePath poolLocator event : String)
    (poolData : Option String) : String :=
  match poolData with
  | none => instancePath ++ (":") ++ poolLocator ++ (":") ++ event
  | some d => instancePath ++ (":") ++ poolLocator ++ (":") ++ event ++ (":") ++ d

/-- Modelled from the spec: lenient decoder for subscription names; on a
string that does not match the packed format it returns undefined fields
rather than failing, as required by the reconciler. -/
def unpackSubscriptionName (data : String) : SubscriptionParts :=
  match splitStr data ':' with
  | [i, l, e] => ⟨i, some l, some e, none⟩
  | [i, l, e, d] => ⟨i, some l, some e, some d⟩
  | _ => ⟨data, none, none, none⟩

/-- Modelled from the spec: the canonical event stream name is derived from
the topic and the instance path. -/
def packStreamName (topic instancePath : String) : String :=
  topic ++ (":") ++ instancePath

/-- Modelled from the spec: lossless binary-to-text transform for free-form
payload data; its content is opaque to every property proved here, so it is
modelled as the identity on strings. -/
def decodeHex (s : String) : String := s

/-- Modelled from the spec: textual rendering of a token identifier for use
inside a templated metadata URI. Its exact digits are opaque to the
properties proved here; any deterministic rendering works. -/
def encodeHexIDForURI (id : TokenTypeId) : String :=
  (if id.isFungible then ("f") else ("n")) ++ id.poolId ++ ("-") ++ id.tokenIndex

/-! ## Raw chain events -/

/-- Common fields of a delivered chain event, as used by the listener. -/
structure Event where
  address : String
  signature : String
  blockNumber : Option String
  transactionIndex : Nat
  transactionHash : String
  logIndex : Option String
  timestamp : String
  inputData : Option String
deriving DecidableEq

structure TransferSingleData where
  fromAddr : String
  toAddr : String
  operator : String
  id : TokenTypeId
  value : String
deriving DecidableEq

structure TransferSingleEvent extends Event where
  data : TransferSingleData
deriving DecidableEq

structure TransferBatchData where
  fromAddr : String
  toAddr : String
  operator : String
  ids : List TokenTypeId
  values : List String
deriving DecidableEq

structure TransferBatchEvent extends Event where
  data : TransferBatchData
deriving DecidableEq

structure TokenPoolCreationData where
  operator : String
  type_id : TokenTypeId
  data : Option String
deriving DecidableEq

structure TokenPoolCreationEvent extends Event where
  data : TokenPoolCreationData
deriving DecidableEq

structure ApprovalForAllData where
  account : String
  operator : String
  approved : Bool
deriving DecidableEq

structure ApprovalForAllEvent extends Event where
  data : ApprovalForAllData
deriving DecidableEq

/-! ## Event id formatting and signature trimming -/

/-- Event id in the recognized format: zero-padded block number, transaction
index and log index. The transaction index is parsed as an arbitrary
precision integer and re-rendered in decimal, while block number and log
index strings are padded as delivered. -/
def formatBlockchainEventId (event : Event) : String :=
  let blockNumber := event.blockNumber.getD ("0")
  let txIndex := Nat.repr event.transactionIndex
  let logIndex := event.logIndex.getD ("0")
  String.intercalate ("/")
    [padStart blockNumber 12 '0', padStart txIndex 6 '0', padStart logIndex 6 '0']

/-- Drop the parameter list of an event signature; a signature without an
opening parenthesis yields the empty string, as substring with a negative
end index does in JavaScript. -/
def stripParamsFromSignature (signature : String) : String :=
  match splitStr signature '(' with
  | [_] => ("")
  | x :: _ => x
  | [] => ("")

/-- Drop a leading location prefix up to the first colon, only when the colon
occurs at a positive index. -/
def trimEventSignature (signature : String) : String :=
  match splitStr signature ':' with
  | x :: rest =>
    if x = ("") ∨ rest = [] then signature
    else String.intercalate (":") rest
  | [] => signature

/-! ## Emitted websocket messages -/

structure BlockchainEventInfo where
  blockNumber : Option String
  transactionIndex : Nat
  transactionHash : String
  logIndex : Option String
  address : String
  signature : String
deriving DecidableEq

structure BlockchainEvent (α : Type) where
  id : String
  name : String
  location : String
  signature : String
  timestamp : String
  output : α
  info : BlockchainEventInfo
deriving DecidableEq

/-- Blockchain provenance envelope attached to every emitted message. -/
def blockchainEventEnvelope {α : Type} (event : Event) (output : α) : BlockchainEvent α :=
  { id := formatBlockchainEventId event,
    name := stripParamsFromSignature (trimEventSignature event.signature),
    location := ("address=") ++ event.address,
    signature := trimEventSignature event.signature,
    timestamp := event.timestamp,
    output := output,
    info :=
      { blockNumber := event.blockNumber,
        transactionIndex := event.transactionIndex,
        transactionHash := event.transactionHash,
        logIndex := event.logIndex,
        address := event.address,
        signature := trimEventSignature event.signature } }

structure TokenPoolEventInfo where
  address : String
  typeId : String
  baseUri : Option String
deriving DecidableEq

structure TokenPoolEventData where
  standard : String
  poolLocator : String
  type : String
  signer : String
  data : String
  info : TokenPoolEventInfo
  blockchain : BlockchainEvent TokenPoolCreationData
deriving DecidableEq

structure TokenTransferEventData where
  id : String
  poolData : Option String
  poolLocator : String
  tokenIndex : Option String
  uri : Option String
  amount : String
  signer : String
  data : String
  blockchain : BlockchainEvent TransferSingleData
  fromAddr : Option String
  toAddr : Option String
deriving DecidableEq

structure TokenApprovalEventData where
  id : String
  poolData : Option String
  subject : String
  poolLocator : String
  operator : String
  approved : Bool
  signer : String
  data : String
  blockchain : BlockchainEvent ApprovalForAllData
deriving DecidableEq

inductive WSPayload where
  | pool (d : TokenPoolEventData)
  | transfer (d : TokenTransferEventData)
  | approval (d : TokenApprovalEventData)
deriving DecidableEq

structure WebSocketMessage where
  event : String
  data : WSPayload
deriving DecidableEq

/-! ## Event transformation -/

/-- Translation of a pool creation event. The results of the custom URI
support probe and of the base URI query are passed in as the values the
awaited calls resolved to; both calls are total because they catch their own
query failures. -/
def transformTokenPoolCreationEvent (customUriSupported : Bool) (baseUri : String)
    (subName : String) (event : TokenPoolCreationEvent) : Option WebSocketMessage :=
  let output := event.data
  let unpackedId := unpackTokenId output.type_id
  let unpackedSub := unpackSubscriptionName subName
  let decodedData := decodeHex (output.data.getD (""))
  match unpackedSub.poolLocator with
  | none => none
  | some subPoolLocator =>
    let poolLocator := unpackPoolLocator subPoolLocator
    if poolLocator.poolId ≠ BASE_SUBSCRIPTION_NAME ∧ poolLocator.poolId ≠ unpackedId.poolId then
      none
    else
      some
        { event := ("token-pool"),
          data := WSPayload.pool
            { standard := TOKEN_STANDARD,
              poolLocator := packPoolLocator unpackedId.poolId event.blockNumber,
              type := if unpackedId.isFungible then ("fungible") else ("nonfungible"),
              signer := output.operator,
              data := decodedData,
              info :=
                { address := event.address,
                  typeId := ("0x") ++ encodeHexIDForURI output.type_id,
                  baseUri := if customUriSupported then some baseUri else none },
              blockchain := blockchainEventEnvelope event.toEvent output } }

/-- Translation of a single transfer event. The token URI resolver is passed
in as the total function the awaited getTokenUri calls resolve to (that call
catches its own failures). -/
def transformTransferSingleEvent (uriOf : TokenTypeId → String) (subName : String)
    (event : TransferSingleEvent) (eventIndex : Option Nat) : Option WebSocketMessage :=
  let output := event.data
  let unpackedId := unpackTokenId output.id
  let unpackedSub := unpackSubscriptionName subName
  let decodedData := decodeHex (event.inputData.getD (""))
  match unpackedSub.poolLocator with
  | none => none
  | some subPoolLocator =>
    let poolLocator := unpackPoolLocator subPoolLocator
    if poolLocator.poolId ≠ unpackedId.poolId then none
    else if output.fromAddr = ZERO_ADDRESS ∧ output.toAddr = ZERO_ADDRESS then none
    else
      let uri := if unpackedId.isFungible then none else some (uriOf output.id)
      let eventId := formatBlockchainEventId event.toEvent
      let transferId :=
        match eventIndex with
        | none => eventId
        | some i => eventId ++ ("/") ++ padStart (Nat.repr i) 6 '0'
      let commonData : TokenTransferEventData :=
        { id := transferId,
          poolData := unpackedSub.poolData,
          poolLocator := subPoolLocator,
          tokenIndex := unpackedId.tokenIndex,
          uri := uri,
          amount := output.value,
          signer := output.operator,
          data := decodedData,
          blockchain := blockchainEventEnvelope event.toEvent output,
          fromAddr := none,
          toAddr := none }
      if output.fromAddr = ZERO_ADDRESS then
        some { event := ("token-mint"),
               data := WSPayload.transfer { commonData with toAddr := some output.toAddr } }
      else if output.toAddr = ZERO_ADDRESS then
        some { event := ("token-burn"),
               data := WSPayload.transfer { commonData with fromAddr := some output.fromAddr } }
      else
        some { event := ("token-transfer"),
               data := WSPayload.transfer
                 { commonData with fromAddr := some output.fromAddr, toAddr := some output.toAddr } }

/-- Single transfer event synthesized for entry i of a batch transfer event:
the shared fields are spread and the parallel arrays are indexed. -/
def batchEntryEvent (event : TransferBatchEvent) (i : Nat) : TransferSingleEvent :=
  { toEvent := event.toEvent,
    data :=
      { fromAddr := event.data.fromAddr,
        toAddr := event.data.toAddr,
        operator := event.data.operator,
        id := event.data.ids.getD i (packTokenId ("") ("0")),
        value := event.data.values.getD i ("") } }

/-- Translation of a batch transfer event: each parallel entry runs through
the single transfer path with its index, dropped entries are skipped, and
surviving messages are collected in index order. -/
def transformTransferBatchEvent (uriOf : TokenTypeId → String) (subName : String)
    (event : TransferBatchEvent) : List WebSocketMessage :=
  (List.range event.data.ids.length).foldl
    (fun messages i =>
      match transformTransferSingleEvent uriOf subName (batchEntryEvent event i) (some i) with
      | some message => messages ++ [message]
      | none => messages)
    []

/-- Translation of an approval-for-all event. -/
def transformApprovalForAllEvent (subName : String) (event : ApprovalForAllEvent) :
    Option WebSocketMessage :=
  let output := event.data
  let unpackedSub := unpackSubscriptionName subName
  let decodedData := decodeHex (event.inputData.getD (""))
  match unpackedSub.poolLocator with
  | none => none
  | some subPoolLocator =>
    let poolLocator := unpackPoolLocator subPoolLocator
    let eventId := formatBlockchainEventId event.toEvent
    let approvalId := eventId ++ ("/") ++ poolLocator.poolId
    some
      { event := ("token-approval"),
        data := WSPayload.approval
          { id := approvalId,
            poolData := unpackedSub.poolData,
            subject := output.account ++ (":") ++ output.operator,
            poolLocator := subPoolLocator,
            operator := output.operator,
            approved := output.approved,
            signer := output.account,
            data := decodedData,
            blockchain := blockchainEventEnvelope event.toEvent output } }

/-! ## Read-only contract query capability -/

/-- Output of a read-only contract query, a boolean or a string. -/
inductive EthOutput where
  | bool (b : Bool)
  | str (s : String)
deriving DecidableEq

/-- String view of a query output; only string outputs carry text. -/
def EthOutput.asString : EthOutput → String
  | .str s => s
  | .bool _ => ("")

inductive EthParam where
  | str (s : String)
  | tokenId (t : TokenTypeId)
deriving DecidableEq

/-- A single read-only query: the contract method and its parameters. -/
structure QueryCall where
  method : String
  params : List EthParam
deriving DecidableEq

/-- The external query capability: every call either resolves to an output
or rejects. -/
def QueryOracle : Type := QueryCall → Except Unit EthOutput

def supportsInterfaceCall : QueryCall :=
  ⟨("supportsInterface"), [EthParam.str CUSTOM_URI_IID]⟩

def baseTokenUriCall : QueryCall :=
  ⟨("baseTokenUri"), [EthParam.str CUSTOM_URI_IID]⟩

def uriCall (id : TokenTypeId) : QueryCall :=
  ⟨("uri"), [EthParam.tokenId id]⟩

def balanceOfCall (account : String) (id : TokenTypeId) : QueryCall :=
  ⟨("balanceOf"), [EthParam.str account, EthParam.tokenId id]⟩

/-- The lazy memoized custom-URI support probe. The first component is the
value the call resolves to (never a rejection, because the query failure is
caught), the second is the cache field after the call, the third is the list
of capability queries issued by the call. -/
def isCustomUriSupported (supportsCustomUri : Option Bool) (query : QueryOracle) :
    Except Unit Bool × Option Bool × List QueryCall :=
  match supportsCustomUri with
  | some b => (Except.ok b, some b, [])
  | none =>
    match query supportsInterfaceCall with
    | Except.ok result =>
      (Except.ok (result == EthOutput.bool true), some (result == EthOutput.bool true),
        [supportsInterfaceCall])
    | Except.error _ => (Except.ok false, some false, [supportsInterfaceCall])

/-- The base URI query; a failure is caught and resolves to the empty
string. -/
def queryBaseUri (query : QueryOracle) : Except Unit String :=
  match query baseTokenUriCall with
  | Except.ok result => Except.ok result.asString
  | Except.error _ => Except.ok ("")

/-- The per-token URI lookup: queries the uri method, substitutes the id
template placeholder when present, and catches any failure into an empty
string. -/
def getTokenUri (query : QueryOracle) (id : TokenTypeId) : Except Unit String :=
  match query (uriCall id) with
  | Except.ok response =>
    let output := response.asString
    if containsSub output ("\x7bid\x7d") = true then
      Except.ok (replaceFirstSub output ("\x7bid\x7d") (encodeHexIDForURI id))
    else Except.ok output
  | Except.error _ => Except.ok ("")

structure TokenBalance where
  balance : String
deriving DecidableEq

/-- The balance query: unpacks the pool locator, packs the token id and
issues a balanceOf query whose failure propagates to the caller. -/
def balance (query : QueryOracle) (poolLocatorStr account : String)
    (tokenIndex : Option String) : Except Unit TokenBalance :=
  let poolLocator := unpackPoolLocator poolLocatorStr
  match query (balanceOfCall account (packTokenId poolLocator.poolId (tokenIndex.getD ("0")))) with
  | Except.ok response => Except.ok ⟨response.asString⟩
  | Except.error e => Except.error e

/-! ## Event stream directory and reconciliation -/

structure EventStream where
  id : String
  name : String
deriving DecidableEq

structure SubscriptionRecord where
  name : String
  stream : String
deriving DecidableEq

/-- Operations against the event stream directory. -/
inductive DirectoryOp where
  | listStreams
  | listSubscriptions
  | createOrUpdateStream (name : String)
  | getOrCreateSubscription (eventName subName fromBlock : String)
deriving DecidableEq

/-- Read-only directory operations. -/
def DirectoryOp.isRead : DirectoryOp → Bool
  | .listStreams => true
  | .listSubscriptions => true
  | _ => false

/-- The per-group event-name check of the migration check: flagged when the
group size differs from the required list or some required event name is
missing. -/
def subscriptionEventsMismatch (events : List String) : Bool :=
  ALL_SUBSCRIBED_EVENTS.length != events.length ||
    !(ALL_SUBSCRIBED_EVENTS.all (fun ev => events.contains ev))

/-- Insertion into the found-events map, JavaScript Map semantics: keys keep
first-insertion order and values are appended at the end of the existing
entry. -/
def insertFoundEvent : List (String × List String) → String → String →
    List (String × List String)
  | [], key, ev => [(key, [ev])]
  | (k, evs) :: rest, key, ev =>
    if k = key then (k, evs ++ [ev]) :: rest
    else (k, evs) :: insertFoundEvent rest key ev

/-- The grouping loop of the migration check: skips the base subscription,
decodes every other subscription name, and groups event names under the
pool-identifying key. A non-decodable name short-circuits to none, which the
caller reports as attention needed. -/
def buildFoundEvents (baseSubscription : String) :
    List SubscriptionRecord → List (String × List String) →
    Option (List (String × List String))
  | [], acc => some acc
  | sub :: rest, acc =>
    if sub.name = baseSubscription then buildFoundEvents baseSubscription rest acc
    else
      let parts := unpackSubscriptionName sub.name
      match parts.poolLocator, parts.event with
      | some poolLocator, some ev =>
        buildFoundEvents baseSubscription rest
          (insertFoundEvent acc
            (packSubscriptionName parts.instancePath poolLocator ("") parts.poolData) ev)
      | _, _ => none

/-- The subscription examination of the migration check, run once a stream
has been adopted. -/
def checkStreamSubscriptions (instancePath : String) (stream : EventStream)
    (allSubscriptions : List SubscriptionRecord) : Bool :=
  let subscriptions := allSubscriptions.filter (fun s => s.stream == stream.id)
  if subscriptions.length == 0 then false
  else
    match buildFoundEvents
        (packSubscriptionName instancePath BASE_SUBSCRIPTION_NAME tokenCreateEvent none)
        subscriptions [] with
    | none => true
    | some foundEvents => foundEvents.any (fun kv => subscriptionEventsMismatch kv.2)

/-- Result of a migration check run: the boolean attention signal, the
adopted stream cached on the service, and the directory operations issued. -/
structure MigrationCheckOutcome where
  result : Bool
  stream : Option EventStream
  ops : List DirectoryOp
deriving DecidableEq

/-- The migration check: look for the canonical stream name, fall back to
the legacy name (the topic alone), adopt whichever is found, and examine the
subscriptions on the adopted stream. The directory responses are passed in
as the values the list calls resolved to. -/
def migrationCheck (topic instancePath : String) (streams : List EventStream)
    (allSubscriptions : List SubscriptionRecord) : MigrationCheckOutcome :=
  let name := packStreamName topic instancePath
  match streams.find? (fun s => s.name == name) with
  | some existingStream =>
    ⟨checkStreamSubscriptions instancePath existingStream allSubscriptions,
      some existingStream, [DirectoryOp.listStreams, DirectoryOp.listSubscriptions]⟩
  | none =>
    match streams.find? (fun s => s.name == topic) with
    | none => ⟨false, none, [DirectoryOp.listStreams]⟩
    | some existingStream =>
      ⟨checkStreamSubscriptions instancePath existingStream allSubscriptions,
        some existingStream, [DirectoryOp.listStreams, DirectoryOp.listSubscriptions]⟩

/-! ## Pool activation -/

/-- One subscription create-or-reuse request issued during pool
activation. -/
structure SubscriptionRequest where
  eventName : String
  subName : String
  fromBlock : String
deriving DecidableEq

/-- The four subscription requests issued together by activatePool (the
branch in which all four event ABIs are present, which holds for the packaged
contract ABI). The first three are seeded from the creation block recorded in
the pool locator, defaulting to block zero when absent; the approval
subscription is always seeded from block zero. -/
def activatePoolRequests (instancePath poolLocatorStr : String)
    (poolData : Option String) : List SubscriptionRequest :=
  let poolLocator := unpackPoolLocator poolLocatorStr
  [ ⟨tokenCreateEvent,
      packSubscriptionName instancePath poolLocatorStr tokenCreateEvent poolData,
      poolLocator.blockNumber.getD ("0")⟩,
    ⟨transferSingleEvent,
      packSubscriptionName instancePath poolLocatorStr transferSingleEvent poolData,
      poolLocator.blockNumber.getD ("0")⟩,
    ⟨transferBatchEvent,
      packSubscriptionName instancePath poolLocatorStr transferBatchEvent poolData,
      poolLocator.blockNumber.getD ("0")⟩,
    ⟨approvalForAllEvent,
      packSubscriptionName instancePath poolLocatorStr approvalForAllEvent poolData,
      ("0")⟩ ]

/-! ## Decimal digit strings and lexicographic order

Auxiliary theory used to settle the ordering property of the provenance id:
the zero padded decimal rendering of a natural number below the field width
is its fixed width digit string, and fixed width digit strings compare
lexicographically exactly as their values. -/

/-- Minimal decimal digit list of a natural number, most significant digit
first. -/
def digitsMin (n : Nat) : List Char :=
  if n < 10 then [Nat.digitChar n]
  else digitsMin (n / 10) ++ [Nat.digitChar (n % 10)]
  decreasing_by exact Nat.div_lt_self (by omega) (by omega)

theorem toDigitsCore_eq_digitsMin (fuel n : Nat) (ds : List Char) (h : n < fuel) :
    Nat.toDigitsCore 10 fuel n ds = digitsMin n ++ ds := by
  induction fuel generalizing n ds with
  | zero => omega
  | succ fuel ih =>
    unfold Nat.toDigitsCore
    by_cases h10 : n / 10 = 0
    · have hn : n < 10 := by omega
      rw [digitsMin.eq_def]
      simp [h10, hn, Nat.mod_eq_of_lt hn]
    · have hlt : n / 10 < fuel := by omega
      simp only [h10, if_false]
      rw [ih _ _ hlt]
      have hge : ¬ n < 10 := by omega
      conv_rhs => rw [digitsMin.eq_def]
      rw [if_neg hge]
      simp

/-- The characters of the decimal rendering of a natural number are its
minimal digit list. -/
theorem repr_data_eq_digitsMin (n : Nat) : (Nat.repr n).data = digitsMin n := by
  show (Nat.toDigits 10 n).asString.data = digitsMin n
  unfold Nat.toDigits
  rw [toDigitsCore_eq_digitsMin _ _ _ (Nat.lt_succ_self n)]
  simp [List.asString]

theorem digitsMin_length_le (k : Nat) : ∀ n, 0 < k → n < 10 ^ k →
    (digitsMin n).length ≤ k := by
  induction k with
  | zero => omega
  | succ k ih =>
    intro n _ h
    by_cases hn : n < 10
    · rw [digitsMin.eq_def, if_pos hn]
      simp
    · have hk1 : 0 < k := by
        rcases Nat.eq_zero_or_pos k with h0 | h0
        · subst h0
          norm_num at h
          omega
        · exact h0
      have hdiv : n / 10 < 10 ^ k := by
        rw [Nat.div_lt_iff_lt_mul (by omega)]
        calc n < 10 ^ (k + 1) := h
        _ = 10 ^ k * 10 := by ring
      have := ih (n / 10) hk1 hdiv
      rw [digitsMin.eq_def, if_neg hn]
      simp only [List.length_append, List.length_singleton]
      omega

/-- Fixed width decimal digit list, most significant digit first. -/
def digitsFixed : Nat → Nat → List Char
  | 0, _ => []
  | k + 1, n => digitsFixed k (n / 10) ++ [Nat.digitChar (n % 10)]

theorem digitsFixed_length (k n : Nat) : (digitsFixed k n).length = k := by
  induction k generalizing n with
  | zero => rfl
  | succ k ih => simp [digitsFixed, ih]

theorem digitsFixed_zero (k : Nat) : digitsFixed k 0 = List.replicate k '0' := by
  induction k with
  | zero => rfl
  | succ k ih =>
    show digitsFixed k 0 ++ [Nat.digitChar 0] = _
    rw [ih, List.replicate_succ' (n := k)]
    rfl

theorem digitsFixed_eq_pad (k n : Nat) (hk : 0 < k) (h : n < 10 ^ k) :
    digitsFixed k n = List.replicate (k - (digitsMin n).length) '0' ++ digitsMin n := by
  induction k generalizing n with
  | zero => omega
  | succ k ih =>
    by_cases hn : n < 10
    · have hdiv : n / 10 = 0 := Nat.div_eq_of_lt hn
      have hmod : n % 10 = n := Nat.mod_eq_of_lt hn
      show digitsFixed k (n / 10) ++ [Nat.digitChar (n % 10)] = _
      rw [hdiv, hmod, digitsFixed_zero, digitsMin.eq_def, if_pos hn]
      simp
    · have hk1 : 0 < k := by
        rcases Nat.eq_zero_or_pos k with h0 | h0
        · subst h0
          norm_num at h
          omega
        · exact h0
      have hdiv : n / 10 < 10 ^ k := by
        rw [Nat.div_lt_iff_lt_mul (by omega)]
        calc n < 10 ^ (k + 1) := h
        _ = 10 ^ k * 10 := by ring
      show digitsFixed k (n / 10) ++ [Nat.digitChar (n % 10)] = _
      rw [ih _ hk1 hdiv]
      conv_rhs => rw [digitsMin.eq_def]
      rw [if_neg hn]
      have hlen : (digitsMin (n / 10)).length ≤ k := digitsMin_length_le k (n / 10) hk1 hdiv
      simp only [List.length_append, List.length_singleton, List.append_assoc]
      have harith : k - (digitsMin (n / 10)).length = k + 1 - ((digitsMin (n / 10)).length + 1) := by
        omega
      rw [harith]

theorem digitChar_lt_digitChar : ∀ d1 < 10, ∀ d2 < 10, d1 < d2 →
    Nat.digitChar d1 < Nat.digitChar d2 := by decide

theorem lex_append_left {l₁ l₂ r₁ r₂ : List Char} (hlen : l₁.length = l₂.length)
    (h : List.Lex (· < ·) l₁ l₂) : List.Lex (· < ·) (l₁ ++ r₁) (l₂ ++ r₂) := by
  induction h generalizing r₁ r₂ with
  | nil => simp at hlen
  | cons h ih => exact List.Lex.cons (ih (by simpa using hlen))
  | rel h => exact List.Lex.rel h

theorem lex_append_right (l : List Char) {r₁ r₂ : List Char}
    (h : List.Lex (· < ·) r₁ r₂) : List.Lex (· < ·) (l ++ r₁) (l ++ r₂) := by
  induction l with
  | nil => exact h
  | cons a t ih => exact List.Lex.cons ih

/-- Fixed width decimal digit strings compare lexicographically as their
values. -/
theorem digitsFixed_lex (k : Nat) : ∀ a b, a < b → b < 10 ^ k →
    List.Lex (· < ·) (digitsFixed k a) (digitsFixed k b) := by
  induction k with
  | zero =>
    intro a b hab hb
    omega
  | succ k ih =>
    intro a b hab hb
    have hbd : b / 10 < 10 ^ k := by
      rw [Nat.div_lt_iff_lt_mul (by omega)]
      calc b < 10 ^ (k + 1) := hb
      _ = 10 ^ k * 10 := by ring
    have hle : a / 10 ≤ b / 10 := Nat.div_le_div_right (Nat.le_of_lt hab)
    rcases Nat.lt_or_ge (a / 10) (b / 10) with hlt | hge
    · exact lex_append_left (by simp [digitsFixed_length]) (ih _ _ hlt hbd)
    · have heq : a / 10 = b / 10 := by omega
      have hmod : a % 10 < b % 10 := by omega
      show List.Lex _ (digitsFixed k (a / 10) ++ [Nat.digitChar (a % 10)]) _
      rw [heq]
      exact lex_append_right _ (List.Lex.rel
        (digitChar_lt_digitChar _ (Nat.mod_lt _ (by omega)) _ (Nat.mod_lt _ (by omega)) hmod))

/-- Zero padding the decimal rendering of a value below the field width
yields exactly the fixed width digit string. -/
theorem padStart_repr_data (k n : Nat) (hk : 0 < k) (h : n < 10 ^ k) :
    (padStart (Nat.repr n) k '0').data = digitsFixed k n := by
  show List.replicate (k - (Nat.repr n).data.length) '0' ++ (Nat.repr n).data = _
  rw [repr_data_eq_digitsMin, digitsFixed_eq_pad k n hk h]

theorem padStart_repr_lex (k a b : Nat) (hk : 0 < k) (hab : a < b) (hb : b < 10 ^ k) :
    List.Lex (· < ·) (padStart (Nat.repr a) k '0').data (padStart (Nat.repr b) k '0').data := by
  rw [padStart_repr_data k a hk (lt_trans hab hb), padStart_repr_data k b hk hb]
  exact digitsFixed_lex k a b hab hb

/-- The provenance id as the concatenation of its three padded fields, for
an event whose fields are decimal renderings. -/
theorem formatBlockchainEventId_eq (e : Event) (b t l : Nat)
    (hb : e.blockNumber = some (Nat.repr b)) (ht : e.transactionIndex = t)
    (hl : e.logIndex = some (Nat.repr l)) :
    formatBlockchainEventId e =
      padStart (Nat.repr b) 12 '0' ++ ("/") ++ padStart (Nat.repr t) 6 '0' ++ ("/") ++
        padStart (Nat.repr l) 6 '0' := by
  unfold formatBlockchainEventId
  rw [hb, ht, hl]
  rfl

theorem concat_id_data (A B C : String) :
    (A ++ ("/") ++ B ++ ("/") ++ C).data =
      A.data ++ '/' :: (B.data ++ '/' :: C.data) := by
  have hs : (("/") : String).data = ['/'] := rfl
  rw [String.data_append, String.data_append, String.data_append, String.data_append, hs]
  simp

/-- Lexicographic comparison of two three-field ids with a common separator,
driven by the lexicographic comparison of the field triples. -/
theorem lex_triple (A1 A2 B1 B2 C1 C2 : List Char)
    (hA : A1.length = A2.length) (hB : B1.length = B2.length)
    (h : List.Lex (· < ·) A1 A2 ∨
      (A1 = A2 ∧ (List.Lex (· < ·) B1 B2 ∨ (B1 = B2 ∧ List.Lex (· < ·) C1 C2)))) :
    List.Lex (· < ·) (A1 ++ '/' :: (B1 ++ '/' :: C1)) (A2 ++ '/' :: (B2 ++ '/' :: C2)) := by
  rcases h with hA' | ⟨rfl, hBC⟩
  · exact lex_append_left hA hA'
  · rcases hBC with hB' | ⟨rfl, hC⟩
    · exact lex_append_right A1 (List.Lex.cons (lex_append_left hB hB'))
    · exact lex_append_right A1 (List.Lex.cons (lex_append_right B1 (List.Lex.cons hC)))

/-! ## Claim C2: provenance id ordering -/

/-- Claim C2 (amended): for two events on the same chain whose block number,
transaction index and log index fields are decimal renderings of naturals
that fit the padded field widths (block number below ten to the twelfth,
transaction and log index below ten to the sixth), emission order (block
number, then transaction index, then log index) implies strict lexicographic
order of the formatted provenance ids. -/
theorem claim_C2 (e1 e2 : Event) (b1 t1 l1 b2 t2 l2 : Nat)
    (hb1 : e1.blockNumber = some (Nat.repr b1))
    (ht1 : e1.transactionIndex = t1)
    (hl1 : e1.logIndex = some (Nat.repr l1))
    (hb2 : e2.blockNumber = some (Nat.repr b2))
    (ht2 : e2.transactionIndex = t2)
    (hl2 : e2.logIndex = some (Nat.repr l2))
    (hwb1 : b1 < 10 ^ 12) (hwb2 : b2 < 10 ^ 12)
    (hwt1 : t1 < 10 ^ 6) (hwt2 : t2 < 10 ^ 6)
    (hwl1 : l1 < 10 ^ 6) (hwl2 : l2 < 10 ^ 6)
    (horder : b1 < b2 ∨ (b1 = b2 ∧ (t1 < t2 ∨ (t1 = t2 ∧ l1 < l2)))) :
    formatBlockchainEventId e1 < formatBlockchainEventId e2 := by
  rw [String.lt_iff_toList_lt]
  show (formatBlockchainEventId e1).data < (formatBlockchainEventId e2).data
  rw [formatBlockchainEventId_eq e1 b1 t1 l1 hb1 ht1 hl1,
      formatBlockchainEventId_eq e2 b2 t2 l2 hb2 ht2 hl2,
      concat_id_data, concat_id_data]
  show List.Lex (· < ·) _ _
  refine lex_triple _ _ _ _ _ _ ?_ ?_ ?_
  · rw [padStart_repr_data 12 b1 (by norm_num) hwb1,
        padStart_repr_data 12 b2 (by norm_num) hwb2]
    simp [digitsFixed_length]
  · rw [padStart_repr_data 6 t1 (by norm_num) hwt1,
        padStart_repr_data 6 t2 (by norm_num) hwt2]
    simp [digitsFixed_length]
  · rcases horder with hb | ⟨rfl, ht | ⟨rfl, hl⟩⟩
    · exact Or.inl (padStart_repr_lex 12 b1 b2 (by norm_num) hb hwb2)
    · exact Or.inr ⟨rfl, Or.inl (padStart_repr_lex 6 t1 t2 (by norm_num) ht hwt2)⟩
    · exact Or.inr ⟨rfl, Or.inr ⟨rfl, padStart_repr_lex 6 l1 l2 (by norm_num) hl hwl2⟩⟩

/-- Event at block 5, transaction index 1, log index 2. -/
def w2e1 : Event :=
  { address := ("0xa"),
    signature := ("TransferSingle(address,address,address,uint256,uint256)"),
    blockNumber := some ("5"),
    transactionIndex := 1,
    transactionHash := ("0xh1"),
    logIndex := some ("2"),
    timestamp := ("2021-01-01"),
    inputData := none }

/-- Event at block 5, transaction index 1, log index 10. -/
def w2e2 : Event :=
  { address := ("0xa"),
    signature := ("TransferSingle(address,address,address,uint256,uint256)"),
    blockNumber := some ("5"),
    transactionIndex := 1,
    transactionHash := ("0xh2"),
    logIndex := some ("10"),
    timestamp := ("2021-01-01"),
    inputData := none }

/-- Witness for claim C2 at the example from the specification: blocks 5 and
5, transaction indices 1 and 1, log indices 2 and 10. -/
theorem claim_C2_witness :
    ((2 : Nat) < 10 ∧ (5 : Nat) < 10 ^ 12) ∧
      formatBlockchainEventId w2e1 < formatBlockchainEventId w2e2 :=
  ⟨⟨by norm_num, by norm_num⟩,
    claim_C2 w2e1 w2e2 5 1 2 5 1 10 rfl rfl rfl rfl rfl rfl
      (by norm_num) (by norm_num) (by norm_num) (by norm_num) (by norm_num) (by norm_num)
      (Or.inr ⟨rfl, Or.inr ⟨rfl, by norm_num⟩⟩)⟩

/-- Event at the largest twelve digit block number. -/
def c2eA : Event :=
  { address := ("0xa"),
    signature := ("TransferSingle(address,address,address,uint256,uint256)"),
    blockNumber := some ("999999999999"),
    transactionIndex := 0,
    transactionHash := ("0xh1"),
    logIndex := some ("0"),
    timestamp := ("t"),
    inputData := none }

/-- Event one block later, at the first thirteen digit block number. -/
def c2eB : Event :=
  { address := ("0xa"),
    signature := ("TransferSingle(address,address,address,uint256,uint256)"),
    blockNumber := some ("1000000000000"),
    transactionIndex := 0,
    transactionHash := ("0xh2"),
    logIndex := some ("0"),
    timestamp := ("t"),
    inputData := none }

/-- Counterexample to claim C2 as stated: for an earlier event at block
999999999999 and a later event at block 1000000000000 (same transaction and
log indices), the earlier formatted id does not sort before the later one,
because a thirteen digit block number escapes the twelve digit padding. -/
theorem claim_C2_counterexample :
    c2eA.blockNumber = some (Nat.repr 999999999999) ∧
    c2eB.blockNumber = some (Nat.repr 1000000000000) ∧
    c2eA.transactionIndex = c2eB.transactionIndex ∧
    c2eA.logIndex = c2eB.logIndex ∧
    (999999999999 : Nat) < 1000000000000 ∧
    ¬ formatBlockchainEventId c2eA < formatBlockchainEventId c2eB := by
  refine ⟨by decide, by decide, rfl, rfl, by norm_num, ?_⟩
  rw [String.lt_iff_toList_lt]
  decide

/-! ## Claim C1: sentinel classification of single transfers -/

/-- Claim C1: for a recognized single transfer event accepted for the
subscribed pool (the subscription name decodes to a pool locator whose pool
id matches the pool id decoded from the token id), the emitted event kind is
chosen by sentinel address inspection: zero from address gives token-mint,
zero to address gives token-burn, neither zero gives token-transfer, and
both zero yields no message at all. -/
theorem claim_C1 (uriOf : TokenTypeId → String) (subName : String)
    (event : TransferSingleEvent) (eventIndex : Option Nat) (subPoolLocator : String)
    (hsub : (unpackSubscriptionName subName).poolLocator = some subPoolLocator)
    (hpool : (unpackPoolLocator subPoolLocator).poolId = (unpackTokenId event.data.id).poolId) :
    (event.data.fromAddr = ZERO_ADDRESS ∧ event.data.toAddr = ZERO_ADDRESS →
      transformTransferSingleEvent uriOf subName event eventIndex = none) ∧
    (event.data.fromAddr = ZERO_ADDRESS → event.data.toAddr ≠ ZERO_ADDRESS →
      ∃ d, transformTransferSingleEvent uriOf subName event eventIndex =
        some ⟨("token-mint"), WSPayload.transfer d⟩) ∧
    (event.data.fromAddr ≠ ZERO_ADDRESS → event.data.toAddr = ZERO_ADDRESS →
      ∃ d, transformTransferSingleEvent uriOf subName event eventIndex =
        some ⟨("token-burn"), WSPayload.transfer d⟩) ∧
    (event.data.fromAddr ≠ ZERO_ADDRESS → event.data.toAddr ≠ ZERO_ADDRESS →
      ∃ d, transformTransferSingleEvent uriOf subName event eventIndex =
        some ⟨("token-transfer"), WSPayload.transfer d⟩) := by
  refine ⟨?_, ?_, ?_, ?_⟩
  · rintro ⟨h1, h2⟩
    simp [transformTransferSingleEvent, hsub, hpool, h1, h2]
  · intro h1 h2
    simp [transformTransferSingleEvent, hsub, hpool, h1, h2]
  · intro h1 h2
    simp [transformTransferSingleEvent, hsub, hpool, h1, h2]
  · intro h1 h2
    simp [transformTransferSingleEvent, hsub, hpool, h1, h2]

/-- Single transfer event minting into address 0xabc. -/
def w1Event : TransferSingleEvent :=
  { toEvent := w2e1,
    data :=
      { fromAddr := ZERO_ADDRESS,
        toAddr := ("0xabc"),
        operator := ("0xop"),
        id := ⟨true, ("F1"), ("0")⟩,
        value := ("1") } }

/-- Witness for claim C1: a transfer from the zero address delivered to the
subscription of its own pool classifies as token-mint. -/
theorem claim_C1_witness :
    (unpackSubscriptionName ("inst:F1:TransferSingle")).poolLocator = some ("F1") ∧
    ∃ d, transformTransferSingleEvent (fun _ => ("")) ("inst:F1:TransferSingle") w1Event none =
      some ⟨("token-mint"), WSPayload.transfer d⟩ :=
  ⟨by decide,
    (claim_C1 (fun _ => ("")) ("inst:F1:TransferSingle") w1Event none ("F1")
        (by decide) (by decide)).2.1 (by decide) (by decide)⟩

/-! ## Claim C3: batch expansion -/

/-- The batch translation is the single transfer translation mapped over the
ascending entry indices, dropping discarded entries. -/
theorem transformTransferBatchEvent_eq_filterMap (uriOf : TokenTypeId → String)
    (subName : String) (event : TransferBatchEvent) :
    transformTransferBatchEvent uriOf subName event =
      (List.range event.data.ids.length).filterMap
        (fun i => transformTransferSingleEvent uriOf subName (batchEntryEvent event i) (some i)) := by
  unfold transformTransferBatchEvent
  suffices h : ∀ (l : List Nat) (acc : List WebSocketMessage),
      l.foldl
        (fun messages i =>
          match transformTransferSingleEvent uriOf subName (batchEntryEvent event i) (some i) with
          | some message => messages ++ [message]
          | none => messages) acc =
      acc ++ l.filterMap
        (fun i => transformTransferSingleEvent uriOf subName (batchEntryEvent event i) (some i)) by
    simpa using h (List.range event.data.ids.length) []
  intro l
  induction l with
  | nil =>
    intro acc
    simp
  | cons a t ih =>
    intro acc
    cases hfa : transformTransferSingleEvent uriOf subName (batchEntryEvent event a) (some a) with
    | none => simp [hfa, ih]
    | some m => simp [hfa, ih]

/-- A surviving single transfer message carries the provenance id suffixed
with the zero padded sub index. -/
theorem transformTransferSingleEvent_id (uriOf : TokenTypeId → String) (subName : String)
    (ev : TransferSingleEvent) (i : Nat) (m : WebSocketMessage)
    (h : transformTransferSingleEvent uriOf subName ev (some i) = some m) :
    ∃ d, m.data = WSPayload.transfer d ∧
      d.id = formatBlockchainEventId ev.toEvent ++ ("/") ++ padStart (Nat.repr i) 6 '0' := by
  cases hsub : (unpackSubscriptionName subName).poolLocator with
  | none =>
    simp only [transformTransferSingleEvent, hsub] at h
    exact Option.noConfusion h
  | some loc =>
    simp only [transformTransferSingleEvent, hsub] at h
    split_ifs at h <;>
      first
        | exact Option.noConfusion h
        | (injection h with h
           subst h
           exact ⟨_, rfl, rfl⟩)

/-- Claim C3: a batch transfer event with parallel arrays of equal length
expands through the single transfer path at each ascending index, discarded
entries are dropped individually with the order of survivors preserved, and
every surviving message carries the provenance id suffixed with the zero
padded sub index. -/
theorem claim_C3 (uriOf : TokenTypeId → String) (subName : String)
    (event : TransferBatchEvent)
    (hlen : event.data.values.length = event.data.ids.length) :
    transformTransferBatchEvent uriOf subName event =
      (List.range event.data.ids.length).filterMap
        (fun i => transformTransferSingleEvent uriOf subName (batchEntryEvent event i) (some i)) ∧
    ∀ m ∈ transformTransferBatchEvent uriOf subName event,
      ∃ i, i < event.data.ids.length ∧
        transformTransferSingleEvent uriOf subName (batchEntryEvent event i) (some i) = some m ∧
        ∃ d, m.data = WSPayload.transfer d ∧
          d.id = formatBlockchainEventId event.toEvent ++ ("/") ++ padStart (Nat.repr i) 6 '0' := by
  constructor
  · exact transformTransferBatchEvent_eq_filterMap uriOf subName event
  · intro m hm
    rw [transformTransferBatchEvent_eq_filterMap] at hm
    rcases List.mem_filterMap.mp hm with ⟨i, hi, hfi⟩
    exact ⟨i, List.mem_range.mp hi, hfi,
      transformTransferSingleEvent_id uriOf subName (batchEntryEvent event i) i m hfi⟩

/-- Batch transfer event with two entries minting into address 0xabc. -/
def w3Event : TransferBatchEvent :=
  { toEvent := w2e1,
    data :=
      { fromAddr := ZERO_ADDRESS,
        toAddr := ("0xabc"),
        operator := ("0xop"),
        ids := [⟨true, ("F1"), ("0")⟩, ⟨true, ("F1"), ("0")⟩],
        values := [("1"), ("2")] } }

/-- Witness for claim C3 at a concrete two entry batch event. -/
theorem claim_C3_witness :
    w3Event.data.values.length = w3Event.data.ids.length ∧
    transformTransferBatchEvent (fun _ => ("")) ("inst:F1:TransferBatch") w3Event =
      (List.range w3Event.data.ids.length).filterMap
        (fun i => transformTransferSingleEvent (fun _ => ("")) ("inst:F1:TransferBatch")
          (batchEntryEvent w3Event i) (some i)) :=
  ⟨rfl, (claim_C3 (fun _ => ("")) ("inst:F1:TransferBatch") w3Event rfl).1⟩

/-! ## Claim C4: pool creation acceptance and emitted locator -/

/-- Claim C4: a pool creation event produces a token-pool message exactly
when the subscription name decodes to a pool locator that is the base
sentinel or whose pool id equals the pool id decoded from the emitted type
id; otherwise the event is silently filtered. An emitted message carries the
pool locator packed from the decoded pool id and the event block number. -/
theorem claim_C4 (customUriSupported : Bool) (baseUri : String) (subName : String)
    (event : TokenPoolCreationEvent) :
    ((∃ m, transformTokenPoolCreationEvent customUriSupported baseUri subName event = some m) ↔
      ∃ loc, (unpackSubscriptionName subName).poolLocator = some loc ∧
        ((unpackPoolLocator loc).poolId = BASE_SUBSCRIPTION_NAME ∨
          (unpackPoolLocator loc).poolId = (unpackTokenId event.data.type_id).poolId)) ∧
    ∀ m, transformTokenPoolCreationEvent customUriSupported baseUri subName event = some m →
      ∃ d, m.data = WSPayload.pool d ∧
        d.poolLocator =
          packPoolLocator (unpackTokenId event.data.type_id).poolId event.blockNumber := by
  cases hsub : (unpackSubscriptionName subName).poolLocator with
  | none =>
    constructor
    · constructor
      · rintro ⟨m, hm⟩
        simp [transformTokenPoolCreationEvent, hsub] at hm
      · rintro ⟨loc, hloc, _⟩
        cases hloc
    · intro m hm
      simp [transformTokenPoolCreationEvent, hsub] at hm
  | some loc =>
    constructor
    · constructor
      · rintro ⟨m, hm⟩
        refine ⟨loc, rfl, ?_⟩
        by_contra hne
        push_neg at hne
        simp [transformTokenPoolCreationEvent, hsub, hne.1, hne.2] at hm
      · rintro ⟨loc0, hloc0, hacc0⟩
        injection hloc0 with hl
        subst hl
        have hne : transformTokenPoolCreationEvent customUriSupported baseUri subName event ≠
            none := by
          simp only [transformTokenPoolCreationEvent, hsub]
          rw [if_neg (by tauto)]
          simp
        cases ho : transformTokenPoolCreationEvent customUriSupported baseUri subName event with
        | none => exact absurd ho hne
        | some m => exact ⟨m, rfl⟩
    · intro m hm
      simp only [transformTokenPoolCreationEvent, hsub] at hm
      split_ifs at hm <;>
        first
          | exact Option.noConfusion hm
          | (injection hm with hm
             subst hm
             exact ⟨_, rfl, rfl⟩)

/-- Pool creation event for pool F1. -/
def w4Event : TokenPoolCreationEvent :=
  { toEvent := w2e1,
    data :=
      { operator := ("0xop"),
        type_id := ⟨true, ("F1"), ("0")⟩,
        data := none } }

/-- Witness for claim C4: a creation event for pool F1 delivered to the
subscription of pool F1 is accepted. -/
theorem claim_C4_witness :
    ∃ m, transformTokenPoolCreationEvent false ("") ("inst:F1:TokenPoolCreation") w4Event =
      some m :=
  (claim_C4 false ("") ("inst:F1:TokenPoolCreation") w4Event).1.mpr
    ⟨("F1"), by decide, Or.inr (by decide)⟩

/-! ## Claim C10: undecodable subscription names -/

/-- Claim C10: when the delivering subscription name does not decode to a
pool locator, every transformation path produces no domain event; in this
total embedding none of the paths can fail. -/
theorem claim_C10 (customUriSupported : Bool) (baseUri : String)
    (uriOf : TokenTypeId → String) (subName : String) (e1 : TokenPoolCreationEvent)
    (e2 : TransferSingleEvent) (idx : Option Nat) (e3 : TransferBatchEvent)
    (e4 : ApprovalForAllEvent)
    (hsub : (unpackSubscriptionName subName).poolLocator = none) :
    transformTokenPoolCreationEvent customUriSupported baseUri subName e1 = none ∧
    transformTransferSingleEvent uriOf subName e2 idx = none ∧
    transformTransferBatchEvent uriOf subName e3 = [] ∧
    transformApprovalForAllEvent subName e4 = none := by
  refine ⟨?_, ?_, ?_, ?_⟩
  · simp [transformTokenPoolCreationEvent, hsub]
  · simp [transformTransferSingleEvent, hsub]
  · rw [transformTransferBatchEvent_eq_filterMap]
    refine List.filterMap_eq_nil_iff.mpr ?_
    intro i _
    simp [transformTransferSingleEvent, hsub]
  · simp [transformApprovalForAllEvent, hsub]

/-- Pool creation event used by the C10 witness. -/
def w10e1 : TokenPoolCreationEvent := w4Event

/-- Single transfer event used by the C10 witness. -/
def w10e2 : TransferSingleEvent := w1Event

/-- Batch transfer event used by the C10 witness. -/
def w10e3 : TransferBatchEvent := w3Event

/-- Approval event used by the C10 witness. -/
def w10e4 : ApprovalForAllEvent :=
  { toEvent := w2e1,
    data :=
      { account := ("0xacc"),
        operator := ("0xop"),
        approved := true } }

/-- Witness for claim C10 at a subscription name that does not decode. -/
theorem claim_C10_witness :
    (unpackSubscriptionName ("malformed")).poolLocator = none ∧
    transformTransferSingleEvent (fun _ => ("")) ("malformed") w10e2 none = none :=
  ⟨by decide,
    (claim_C10 false ("") (fun _ => ("")) ("malformed") w10e1 w10e2 none w10e3 w10e4
        (by decide)).2.1⟩

/-! ## Claim C5: migration check grouping and event set comparison -/

/-- The per-group check passes exactly when the group has as many event
names as the required list and contains every required name. -/
theorem subscriptionEventsMismatch_false_iff (events : List String) :
    subscriptionEventsMismatch events = false ↔
      (ALL_SUBSCRIBED_EVENTS.length = events.length ∧
        ∀ e ∈ ALL_SUBSCRIBED_EVENTS, e ∈ events) := by
  simp [subscriptionEventsMismatch]

/-- On duplicate free groups the per-group check is unordered set equality
with the required event names. -/
theorem subscriptionEventsMismatch_nodup (events : List String) (hnd : events.Nodup) :
    (subscriptionEventsMismatch events = false ↔
      events.toFinset = ALL_SUBSCRIBED_EVENTS.toFinset) := by
  rw [subscriptionEventsMismatch_false_iff]
  have hcardAll : ALL_SUBSCRIBED_EVENTS.toFinset.card = ALL_SUBSCRIBED_EVENTS.length := by decide
  have hcardEv : events.toFinset.card = events.length := List.toFinset_card_of_nodup hnd
  constructor
  · rintro ⟨hlen, hmem⟩
    have hsubset : ALL_SUBSCRIBED_EVENTS.toFinset ⊆ events.toFinset := by
      intro x hx
      exact List.mem_toFinset.mpr (hmem x (List.mem_toFinset.mp hx))
    have hcard : events.toFinset.card ≤ ALL_SUBSCRIBED_EVENTS.toFinset.card := by
      rw [hcardAll, hcardEv]
      omega
    exact (Finset.eq_of_subset_of_card_le hsubset hcard).symm
  · intro heq
    have hcardEq : events.toFinset.card = ALL_SUBSCRIBED_EVENTS.toFinset.card := by
      rw [heq]
    constructor
    · omega
    · intro e he
      exact List.mem_toFinset.mp (heq ▸ List.mem_toFinset.mpr he)

/-- Claim C5 (amended): given that the canonical stream is found and every
non base subscription on it decodes, the migration check returns true exactly
when some pool group fails the per-group check, which requires the group to
contain every required event name and to have exactly as many entries as the
required list; on duplicate free groups that check coincides with unordered
set equality of event names, but it counts multiplicity, so a group listing
one event name twice alongside all four required names is flagged even
though its underlying set matches. -/
theorem claim_C5 (topic instancePath : String) (streams : List EventStream)
    (st : EventStream) (allSubscriptions : List SubscriptionRecord)
    (groups : List (String × List String))
    (hstream : streams.find? (fun s => s.name == packStreamName topic instancePath) = some st)
    (hgroups : buildFoundEvents
        (packSubscriptionName instancePath BASE_SUBSCRIPTION_NAME tokenCreateEvent none)
        (allSubscriptions.filter (fun s => s.stream == st.id)) [] = some groups) :
    ((migrationCheck topic instancePath streams allSubscriptions).result = true ↔
      ∃ g ∈ groups, subscriptionEventsMismatch g.2 = true) ∧
    (∀ events : List String, events.Nodup →
      (subscriptionEventsMismatch events = false ↔
        events.toFinset = ALL_SUBSCRIBED_EVENTS.toFinset)) := by
  constructor
  · simp only [migrationCheck, hstream]
    unfold checkStreamSubscriptions
    by_cases hempty : (allSubscriptions.filter (fun s => s.stream == st.id)).length = 0
    · have hnil : allSubscriptions.filter (fun s => s.stream == st.id) = [] :=
        List.length_eq_zero.mp hempty
      rw [hnil] at hgroups
      have hg : groups = [] := by
        simpa [buildFoundEvents] using hgroups.symm
      subst hg
      simp [hempty]
    · have hcond : (((allSubscriptions.filter (fun s => s.stream == st.id)).length == 0)) =
          false := by
        simpa using hempty
      simp only [hcond, hgroups]
      simp [List.any_eq_true]
  · intro events hnd
    exact subscriptionEventsMismatch_nodup events hnd

def c5stream : EventStream := { id := ("sid"), name := packStreamName ("tpc") ("ip") }

def c5streams : List EventStream := [c5stream]

/-- Subscription list with a duplicated approval subscription entry. -/
def c5subs : List SubscriptionRecord :=
  [⟨packSubscriptionName ("ip") ("F1") tokenCreateEvent none, ("sid")⟩,
   ⟨packSubscriptionName ("ip") ("F1") transferSingleEvent none, ("sid")⟩,
   ⟨packSubscriptionName ("ip") ("F1") transferBatchEvent none, ("sid")⟩,
   ⟨packSubscriptionName ("ip") ("F1") approvalForAllEvent none, ("sid")⟩,
   ⟨packSubscriptionName ("ip") ("F1") approvalForAllEvent none, ("sid")⟩]

/-- Counterexample to claim C5 as stated: in an environment whose single
pool group carries all four required event names (its event name set equals
the required set, so a multiplicity ignoring comparison would pass), the
migration check still returns true, because the group holds five entries and
the comparison counts them. -/
theorem claim_C5_counterexample :
    (migrationCheck ("tpc") ("ip") c5streams c5subs).result = true ∧
    buildFoundEvents (packSubscriptionName ("ip") BASE_SUBSCRIPTION_NAME tokenCreateEvent none)
        (c5subs.filter (fun s => s.stream == c5stream.id)) [] =
      some [(packSubscriptionName ("ip") ("F1") ("") none,
        [tokenCreateEvent, transferSingleEvent, transferBatchEvent, approvalForAllEvent,
          approvalForAllEvent])] ∧
    [tokenCreateEvent, transferSingleEvent, transferBatchEvent, approvalForAllEvent,
        approvalForAllEvent].toFinset =
      ALL_SUBSCRIBED_EVENTS.toFinset := by
  refine ⟨?_, ?_, ?_⟩ <;> decide

/-- Complete subscription set for one pool, no duplicates. -/
def w5subs : List SubscriptionRecord :=
  [⟨packSubscriptionName ("ip") ("F1") tokenCreateEvent none, ("sid")⟩,
   ⟨packSubscriptionName ("ip") ("F1") transferSingleEvent none, ("sid")⟩,
   ⟨packSubscriptionName ("ip") ("F1") transferBatchEvent none, ("sid")⟩,
   ⟨packSubscriptionName ("ip") ("F1") approvalForAllEvent none, ("sid")⟩]

def w5groups : List (String × List String) :=
  [(packSubscriptionName ("ip") ("F1") ("") none, ALL_SUBSCRIBED_EVENTS)]

/-- Witness for claim C5 at a concrete environment with one fully subscribed
pool group. -/
theorem claim_C5_witness :
    (migrationCheck ("tpc") ("ip") c5streams w5subs).result = true ↔
      ∃ g ∈ w5groups, subscriptionEventsMismatch g.2 = true :=
  (claim_C5 ("tpc") ("ip") c5streams c5stream w5subs w5groups (by decide) (by decide)).1

/-! ## Claim C6: pool activation subscriptions -/

/-- Claim C6: pool activation issues exactly four subscription create or
reuse requests, one per tracked event kind, the pool creation and transfer
subscriptions seeded from the creation block recorded in the pool locator
(defaulting to block zero when absent) and the approval subscription always
seeded from block zero. -/
theorem claim_C6 : ∀ (instancePath poolLocatorStr : String) (poolData : Option String),
    (activatePoolRequests instancePath poolLocatorStr poolData).length = 4 ∧
    (activatePoolRequests instancePath poolLocatorStr poolData).map (fun r => r.eventName) =
      ALL_SUBSCRIBED_EVENTS ∧
    (activatePoolRequests instancePath poolLocatorStr poolData).map (fun r => r.fromBlock) =
      [(unpackPoolLocator poolLocatorStr).blockNumber.getD ("0"),
       (unpackPoolLocator poolLocatorStr).blockNumber.getD ("0"),
       (unpackPoolLocator poolLocatorStr).blockNumber.getD ("0"),
       ("0")] := by
  intro instancePath poolLocatorStr poolData
  exact ⟨rfl, rfl, rfl⟩

/-! ## Claim C7: where query failures are caught -/

/-- The always failing query capability. -/
def qFail : QueryOracle := fun _ => Except.error ()

def c7id : TokenTypeId := ⟨false, ("N1"), ("1")⟩

/-- Claim C7 (amended): a failure of the read-only query capability is
caught and converted to a feature-absent result at exactly three call sites,
the custom URI support probe, the base URI query and the per-token URI
lookup; at the remaining query call site, the balance query, a failure
propagates to the immediate caller. -/
theorem claim_C7 (query : QueryOracle) (hfail : ∀ c, query c = Except.error ())
    (id : TokenTypeId) (poolLocatorStr account : String) (tokenIndex : Option String) :
    (isCustomUriSupported none query).1 = Except.ok false ∧
    queryBaseUri query = Except.ok ("") ∧
    getTokenUri query id = Except.ok ("") ∧
    balance query poolLocatorStr account tokenIndex = Except.error () := by
  refine ⟨?_, ?_, ?_, ?_⟩ <;>
    simp [isCustomUriSupported, queryBaseUri, getTokenUri, balance, hfail]

/-- Counterexample to claim C7 as stated: the per-token URI lookup is a
third call site at which a query failure is caught and downgraded to an
empty result instead of propagating. -/
theorem claim_C7_counterexample : getTokenUri qFail c7id = Except.ok ("") := rfl

/-- Witness for claim C7: at the balance query a failure does propagate. -/
theorem claim_C7_witness : balance qFail ("F1") ("0xacc") none = Except.error () :=
  (claim_C7 qFail (fun _ => rfl) c7id ("F1") ("0xacc") none).2.2.2

/-! ## Claim C8: memoized one shot URI support probe -/

/-- Claim C8: the custom URI support probe is lazy, memoized and one shot.
An uncached call issues exactly one capability query: when the query
succeeds, the boolean result (the output compared against true) is returned
and cached; when it fails, false is returned and cached. Every call with a
populated cache returns the cached value and issues no query; in particular
two sequential probes whose first query fails perform exactly one invocation
between them and both return false. -/
theorem claim_C8 (query query2 : QueryOracle) :
    (∀ out, query supportsInterfaceCall = Except.ok out →
      isCustomUriSupported none query =
        (Except.ok (out == EthOutput.bool true), some (out == EthOutput.bool true),
          [supportsInterfaceCall])) ∧
    (query supportsInterfaceCall = Except.error () →
      isCustomUriSupported none query =
        (Except.ok false, some false, [supportsInterfaceCall]) ∧
      isCustomUriSupported (isCustomUriSupported none query).2.1 query2 =
        (Except.ok false, some false, [])) ∧
    (∀ (b : Bool) (q : QueryOracle),
      isCustomUriSupported (some b) q = (Except.ok b, some b, [])) := by
  refine ⟨?_, ?_, ?_⟩
  · intro out hout
    simp [isCustomUriSupported, hout]
  · intro hfail
    constructor
    · simp [isCustomUriSupported, hfail]
    · simp [isCustomUriSupported, hfail]
  · intro b q
    rfl

/-- The capability that reports custom URI support. -/
def qOk : QueryOracle := fun _ => Except.ok (EthOutput.bool true)

/-- Witness for claim C8, exercising both first-call branches: a successful
probe issues one query and caches its boolean result, and a failing probe
issues one query and caches false. -/
theorem claim_C8_witness :
    isCustomUriSupported none qOk = (Except.ok true, some true, [supportsInterfaceCall]) ∧
    isCustomUriSupported none qFail = (Except.ok false, some false, [supportsInterfaceCall]) := by
  constructor
  · have h := (claim_C8 qOk qOk).1 (EthOutput.bool true) rfl
    simpa using h
  · exact ((claim_C8 qFail qFail).2.1 rfl).1

/-! ## Claim C9: the migration check only observes -/

/-- Claim C9: a migration check run issues only list operations against the
event stream directory, never a stream or subscription create, update or
delete; its only local effect is caching the adopted stream, which is always
one of the listed streams when present. -/
theorem claim_C9 : ∀ (topic instancePath : String) (streams : List EventStream)
    (allSubscriptions : List SubscriptionRecord),
    ((migrationCheck topic instancePath streams allSubscriptions).ops.all
      DirectoryOp.isRead) = true ∧
    ((migrationCheck topic instancePath streams allSubscriptions).stream = none ∨
      ∃ s ∈ streams,
        (migrationCheck topic instancePath streams allSubscriptions).stream = some s) := by
  intro topic instancePath streams allSubscriptions
  simp only [migrationCheck]
  cases h1 : streams.find? (fun s => s.name == packStreamName topic instancePath) with
  | some st => exact ⟨rfl, Or.inr ⟨st, List.mem_of_find?_eq_some h1, rfl⟩⟩
  | none =>
    cases h2 : streams.find? (fun s => s.name == topic) with
    | none => exact ⟨rfl, Or.inl rfl⟩
    | some st => exact ⟨rfl, Or.inr ⟨st, List.mem_of_find?_eq_some h2, rfl⟩⟩

end Tokens
